import Mathlib

/-!
Shallow embedding of the face-attendance engine of this repository
(`src/Task 1/add_faces_gui.py` and `src/Task 1/recognize_faces_gui.py`):
the roster data model, the enrollment pipeline `upload_images`, the store
load `load_employees`, the matching loop of `recognize_image` built on
`face_recognition.compare_faces`, and the present/absent partition of
`generate_attendance_report`.

Embeddings are modelled as rational vectors.  `face_recognition.compare_faces`
declares a match when the Euclidean distance is at most the tolerance; for a
nonnegative tolerance this is equivalent to the squared distance being at most
the squared tolerance, which keeps every comparison decidable over ℚ.
-/

/-- An embedding vector: a face encoding as produced by the external
extractor (`face_recognition.face_encodings`), modelled over ℚ. -/
abbrev Emb := List ℚ

/-- Squared Euclidean distance between two embedding vectors
(coordinates beyond the shorter vector are ignored, as dimensionality is
fixed by the external extractor and never validated by the engine). -/
def sqDist (a b : Emb) : ℚ :=
  (List.zipWith (fun x y => (x - y) ^ 2) a b).sum

/-- Model of `face_recognition.compare_faces(known_encodings, unknown_encoding)`:
one Boolean per known encoding, true when the distance to the unknown encoding
is within the tolerance (squared form, see the file comment). -/
def compare_faces (knownEncodings : List Emb) (unknownEncoding : Emb) (tol : ℚ) : List Bool :=
  knownEncodings.map (fun enc => decide (sqDist enc unknownEncoding ≤ tol ^ 2))

/-- The conventional 0.6 distance cutoff used by `compare_faces` by default. -/
def tolerance : ℚ := 3 / 5

/-- One roster entry, as stored in `employees.json`: an object with keys
`id`, `name`, `encodings` (`add_faces_gui.py`, lines 81-85). -/
structure Employee where
  id : String
  name : String
  encodings : List Emb
deriving DecidableEq, Repr

/-- The recognition loop of `recognize_image` (`recognize_faces_gui.py`,
lines 62-68): for each unknown encoding, for each employee, run
`compare_faces` against the employee's stored encodings and add the
employee's id to the recognized set when `True in matches`. -/
def recognizedIds (tol : ℚ) (employees : List Employee) (unknownEncodings : List Emb) :
    Finset String :=
  unknownEncodings.foldl
    (fun acc unknownEncoding =>
      employees.foldl
        (fun acc2 employee =>
          if (compare_faces employee.encodings unknownEncoding tol).contains true then
            insert employee.id acc2
          else
            acc2)
        acc)
    ∅

/-- Outcome of one run of `recognize_image` after the image was read:
the two early returns (lines 50-52 and 57-59 of `recognize_faces_gui.py`)
or the recognized-id set handed to the report generator. -/
inductive RecognizeOutcome where
  /-- Early return `"No employees registered"` (empty roster). -/
  | noEmployees
  /-- Early return `"No faces detected"` (no encodings in the query image). -/
  | noFaces
  /-- The recognition loop ran and produced this recognized set. -/
  | report (recognized : Finset String)
deriving DecidableEq

/-- Model of `RecognizeFaceApp.recognize_image` (lines 49-72) after the query
image has been converted to its encodings by the external extractor. -/
def recognize_image (tol : ℚ) (employees : List Employee) (unknownEncodings : List Emb) :
    RecognizeOutcome :=
  if employees.isEmpty then .noEmployees
  else if unknownEncodings.isEmpty then .noFaces
  else .report (recognizedIds tol employees unknownEncodings)

/-- The recognized-identity set an outcome carries: the early returns never
build a set, which the spec reads as the empty recognized set. -/
def outcomeRecognized : RecognizeOutcome → Finset String
  | .report s => s
  | _ => ∅

/-- The present-rows loop of `generate_attendance_report`
(`recognize_faces_gui.py`, lines 109-112): employees whose id is in the
recognized set, in roster order. -/
def presentRows (employees : List Employee) (recognized : Finset String) : List Employee :=
  employees.filter (fun employee => decide (employee.id ∈ recognized))

/-- The absent-rows loop of `generate_attendance_report`
(`recognize_faces_gui.py`, lines 136-139): employees whose id is not in the
recognized set, in roster order. -/
def absentRows (employees : List Employee) (recognized : Finset String) : List Employee :=
  employees.filter (fun employee => decide (employee.id ∉ recognized))

/-- State of the `employees.json` store as observed by `load_employees`:
the file may be missing (`os.path.exists` false), unreadable or corrupt
(`open`/`json.load` raises), or parse to a roster. -/
inductive StoreFile where
  | missing
  | unreadable
  | parsed (employees : List Employee)
deriving DecidableEq

/-- Model of `load_employees` (identical in both GUI files): the parsed
roster when the file exists and parses, `[]` when the file is missing, and
`[]` when reading or parsing raises (the `except` branch). -/
def load_employees : StoreFile → List Employee
  | .missing => []
  | .unreadable => []
  | .parsed employees => employees

/-- Python `str.isdigit` on ASCII digit strings: nonempty and all digits. -/
def pyIsdigit (s : String) : Bool :=
  !s.isEmpty && s.toList.all Char.isDigit

/-- What the external extractor did with one enrollment image
(`add_faces_gui.py`, lines 66-74): either `face_encodings` returned a list
of encodings (possibly empty, "no face detected"), or loading/encoding
raised an exception. -/
inductive ImageResult where
  | ok (faceEncodings : List Emb)
  | err
deriving DecidableEq, Repr

/-- The per-image collection loop of `upload_images` (lines 64-74): for each
image, append the first encoding when at least one was found; a faceless
image only emits a warning dialog and an exception only an error dialog,
both continuing with the remaining images. -/
def collect_encodings : List ImageResult → List Emb
  | [] => []
  | .ok [] :: rest => collect_encodings rest
  | .ok (enc :: _) :: rest => enc :: collect_encodings rest
  | .err :: rest => collect_encodings rest

/-- The user-visible outcome of one `upload_images` call: the silent early
return when the file dialog yields no paths (line 44-45), the four error
dialogs, or the success dialog with the number of stored encodings. -/
inductive Msg where
  /-- `if not file_paths: return` — no dialog at all. -/
  | silent
  /-- `"Please enter both name and employee ID"`. -/
  | errMissingField
  /-- `"Employee ID must be a number"`. -/
  | errNotANumber
  /-- `"Employee ID already exists"`. -/
  | errDuplicateId
  /-- `"No valid faces detected in any image"`. -/
  | errNoValidFaces
  /-- `"Employee ... added with n images"`. -/
  | success (imageCount : ℕ)
deriving DecidableEq, Repr

/-- Classifies the outcomes that report an error to the caller
(the four `messagebox.showerror` validation and batch failures). -/
def isErrorReport : Msg → Bool
  | .errMissingField => true
  | .errNotANumber => true
  | .errDuplicateId => true
  | .errNoValidFaces => true
  | _ => false

/-- Model of `AddEmployeeApp.upload_images` (lines 42-88).  Inputs are the
extractor's per-image results for the selected paths, the stripped contents
of the name and id entry fields (the `.strip()` calls of lines 47-48, applied
at the call boundary), and the state of the store; output is the dialog shown
and the resulting store state (the store changes only through
`save_employees` at line 87, assumed to succeed). -/
def upload_images (filePaths : List ImageResult) (name employee_id : String)
    (store : StoreFile) : Msg × StoreFile :=
  if filePaths.isEmpty then (.silent, store)
  else if name.isEmpty || employee_id.isEmpty then (.errMissingField, store)
  else if !pyIsdigit employee_id then (.errNotANumber, store)
  else
    let employees := load_employees store
    if employees.any (fun emp => emp.id == employee_id) then (.errDuplicateId, store)
    else
      let encodings := collect_encodings filePaths
      if encodings.isEmpty then (.errNoValidFaces, store)
      else
        let newEmployees :=
          employees ++ [{ id := employee_id, name := name, encodings := encodings }]
        (.success encodings.length, .parsed newEmployees)

/-- One full recognition run against the store: `recognize_image` loads the
roster via `load_employees` (line 49) and never writes the store, so the
store state is threaded through unchanged. -/
def recognize_run (tol : ℚ) (store : StoreFile) (unknownEncodings : List Emb) :
    RecognizeOutcome × StoreFile :=
  (recognize_image tol (load_employees store) unknownEncodings, store)

/-- The roster invariant: no two employees share an id. -/
abbrev uniqueIds (employees : List Employee) : Prop :=
  (employees.map Employee.id).Nodup

/-- Modelled from the spec: "take only the first embedding from that image",
the per-image contribution the enrollment policy prescribes. -/
def firstFace : ImageResult → Option Emb
  | .ok (enc :: _) => some enc
  | _ => none

/-- Membership in the inner fold of the recognition loop (the loop over
employees for one unknown encoding). -/
lemma mem_employees_foldl (tol : ℚ) (q : Emb) (es : List Employee) (acc : Finset String)
    (x : String) :
    (x ∈ es.foldl
      (fun acc2 employee =>
        if (compare_faces employee.encodings q tol).contains true then
          insert employee.id acc2
        else acc2) acc) ↔
      x ∈ acc ∨ ∃ emp ∈ es, (compare_faces emp.encodings q tol).contains true ∧ emp.id = x := by
  induction es generalizing acc with
  | nil => simp
  | cons e rest ih =>
    by_cases h : (compare_faces e.encodings q tol).contains true
    · simp only [List.foldl_cons, h, if_true, ih, Finset.mem_insert, List.mem_cons]
      constructor
      · rintro ((rfl | hx) | ⟨emp, hmem, hc, rfl⟩)
        · exact Or.inr ⟨e, Or.inl rfl, h, rfl⟩
        · exact Or.inl hx
        · exact Or.inr ⟨emp, Or.inr hmem, hc, rfl⟩
      · rintro (hx | ⟨emp, (rfl | hmem), hc, rfl⟩)
        · exact Or.inl (Or.inr hx)
        · exact Or.inl (Or.inl rfl)
        · exact Or.inr ⟨emp, hmem, hc, rfl⟩
    · simp only [List.foldl_cons, h, if_false, ih, List.mem_cons]
      constructor
      · rintro (hx | ⟨emp, hmem, hc, rfl⟩)
        · exact Or.inl hx
        · exact Or.inr ⟨emp, Or.inr hmem, hc, rfl⟩
      · rintro (hx | ⟨emp, (rfl | hmem), hc, rfl⟩)
        · exact Or.inl hx
        · exact absurd hc h
        · exact Or.inr ⟨emp, hmem, hc, rfl⟩

/-- Membership in the outer fold of the recognition loop (the loop over
unknown encodings). -/
lemma mem_queries_foldl (tol : ℚ) (es : List Employee) (qs : List Emb) (acc : Finset String)
    (x : String) :
    (x ∈ qs.foldl
      (fun acc unknownEncoding =>
        es.foldl
          (fun acc2 employee =>
            if (compare_faces employee.encodings unknownEncoding tol).contains true then
              insert employee.id acc2
            else acc2) acc) acc) ↔
      x ∈ acc ∨ ∃ q ∈ qs, ∃ emp ∈ es,
        (compare_faces emp.encodings q tol).contains true ∧ emp.id = x := by
  induction qs generalizing acc with
  | nil => simp
  | cons q rest ih =>
    simp only [List.foldl_cons, ih, mem_employees_foldl, List.mem_cons]
    constructor
    · rintro ((hx | ⟨emp, hmem, hc, rfl⟩) | ⟨q', hq', emp, hmem, hc, rfl⟩)
      · exact Or.inl hx
      · exact Or.inr ⟨q, Or.inl rfl, emp, hmem, hc, rfl⟩
      · exact Or.inr ⟨q', Or.inr hq', emp, hmem, hc, rfl⟩
    · rintro (hx | ⟨q', (rfl | hq'), emp, hmem, hc, rfl⟩)
      · exact Or.inl (Or.inl hx)
      · exact Or.inl (Or.inr ⟨emp, hmem, hc, rfl⟩)
      · exact Or.inr ⟨q', hq', emp, hmem, hc, rfl⟩

/-- Characterization of the recognized-id set built by the recognition loop. -/
lemma mem_recognizedIds (tol : ℚ) (es : List Employee) (qs : List Emb) (x : String) :
    x ∈ recognizedIds tol es qs ↔
      ∃ q ∈ qs, ∃ emp ∈ es,
        (compare_faces emp.encodings q tol).contains true ∧ emp.id = x := by
  unfold recognizedIds
  rw [mem_queries_foldl]
  simp

/-- `True in matches` for `compare_faces`: some stored encoding is within
tolerance of the unknown encoding. -/
lemma contains_compare_faces (encs : List Emb) (q : Emb) (tol : ℚ) :
    (compare_faces encs q tol).contains true = true ↔
      ∃ enc ∈ encs, sqDist enc q ≤ tol ^ 2 := by
  simp [compare_faces, List.contains_iff_exists_mem_beq]

/-- Exhaustive description of one `upload_images` call: the silent early
return, the four error dialogs with the store untouched, or the success
dialog with the new employee appended and persisted. -/
lemma upload_images_cases (fps : List ImageResult) (name employee_id : String)
    (store : StoreFile) :
    (fps = [] ∧ upload_images fps name employee_id store = (.silent, store)) ∨
    (fps ≠ [] ∧ (name.isEmpty || employee_id.isEmpty) = true ∧
      upload_images fps name employee_id store = (.errMissingField, store)) ∨
    (fps ≠ [] ∧ (name.isEmpty || employee_id.isEmpty) = false ∧
      pyIsdigit employee_id = false ∧
      upload_images fps name employee_id store = (.errNotANumber, store)) ∨
    (fps ≠ [] ∧ (name.isEmpty || employee_id.isEmpty) = false ∧
      pyIsdigit employee_id = true ∧
      (load_employees store).any (fun emp => emp.id == employee_id) = true ∧
      upload_images fps name employee_id store = (.errDuplicateId, store)) ∨
    (fps ≠ [] ∧ (name.isEmpty || employee_id.isEmpty) = false ∧
      pyIsdigit employee_id = true ∧
      (load_employees store).any (fun emp => emp.id == employee_id) = false ∧
      collect_encodings fps = [] ∧
      upload_images fps name employee_id store = (.errNoValidFaces, store)) ∨
    (fps ≠ [] ∧ (name.isEmpty || employee_id.isEmpty) = false ∧
      pyIsdigit employee_id = true ∧
      (load_employees store).any (fun emp => emp.id == employee_id) = false ∧
      collect_encodings fps ≠ [] ∧
      upload_images fps name employee_id store =
        (.success (collect_encodings fps).length,
          .parsed (load_employees store ++
            [{ id := employee_id, name := name, encodings := collect_encodings fps }]))) := by
  by_cases h1 : fps.isEmpty
  · exact Or.inl ⟨List.isEmpty_iff.mp h1, by simp [upload_images, h1]⟩
  have h1' : fps ≠ [] := by simpa [List.isEmpty_iff] using h1
  by_cases h2 : (name.isEmpty || employee_id.isEmpty) = true
  · exact Or.inr (Or.inl ⟨h1', h2, by simp [upload_images, h1, h2]⟩)
  have h2' : (name.isEmpty || employee_id.isEmpty) = false := by
    simpa using h2
  by_cases h3 : pyIsdigit employee_id
  case neg =>
    have h3' : pyIsdigit employee_id = false := by simpa using h3
    exact Or.inr (Or.inr (Or.inl ⟨h1', h2', h3', by simp [upload_images, h1, h2', h3']⟩))
  by_cases h4 : (load_employees store).any (fun emp => emp.id == employee_id) = true
  · exact Or.inr (Or.inr (Or.inr (Or.inl
      ⟨h1', h2', h3, h4, by simp [upload_images, h1, h2', h3, h4]⟩)))
  have h4' : (load_employees store).any (fun emp => emp.id == employee_id) = false := by
    simpa using h4
  by_cases h5 : (collect_encodings fps).isEmpty
  · exact Or.inr (Or.inr (Or.inr (Or.inr (Or.inl
      ⟨h1', h2', h3, h4', List.isEmpty_iff.mp h5,
        by simp [upload_images, h1, h2', h3, h4', h5]⟩))))
  · have h5' : collect_encodings fps ≠ [] := by simpa [List.isEmpty_iff] using h5
    exact Or.inr (Or.inr (Or.inr (Or.inr (Or.inr
      ⟨h1', h2', h3, h4', h5',
        by simp [upload_images, h1, h2', h3, h4', h5]⟩))))

/-- C1: for every roster and every recognized-id set, the attendance
resolution of `generate_attendance_report` partitions the roster: the
present rows are exactly the roster entries whose id is recognized and the
absent rows exactly the rest, both in roster order (sublists of the roster);
each roster entry is counted exactly once across the two sequences; and
recognized ids that match no roster entry are ignored (filtering them away
changes neither sequence). -/
theorem resolve_partitions_roster (es : List Employee) (S : Finset String) :
    (presentRows es S).Sublist es ∧
    (absentRows es S).Sublist es ∧
    (∀ e : Employee, e ∈ presentRows es S ↔ e ∈ es ∧ e.id ∈ S) ∧
    (∀ e : Employee, e ∈ absentRows es S ↔ e ∈ es ∧ e.id ∉ S) ∧
    (∀ e : Employee, es.count e = (presentRows es S).count e + (absentRows es S).count e) ∧
    (presentRows es S).length + (absentRows es S).length = es.length ∧
    presentRows es (S.filter (fun s => s ∈ es.map Employee.id)) = presentRows es S ∧
    absentRows es (S.filter (fun s => s ∈ es.map Employee.id)) = absentRows es S := by
  refine ⟨List.filter_sublist es, List.filter_sublist es, ?_, ?_, ?_, ?_, ?_, ?_⟩
  · intro e; simp [presentRows, List.mem_filter]
  · intro e; simp [absentRows, List.mem_filter]
  · intro e
    have h := List.count_eq_count_filter_add (fun emp => emp.id ∈ S) es e
    simpa [presentRows, absentRows] using h
  · have h := List.length_eq_length_filter_add (l := es) (fun emp => decide (emp.id ∈ S))
    simpa [presentRows, absentRows] using h.symm
  · apply List.filter_congr
    intro e he
    simp only [decide_eq_decide, Finset.mem_filter, List.mem_map]
    exact and_iff_left_iff_imp.mpr (fun _ => ⟨e, he, rfl⟩)
  · apply List.filter_congr
    intro e he
    simp only [decide_eq_decide, Finset.mem_filter, List.mem_map, not_iff_not]
    exact and_iff_left_iff_imp.mpr (fun _ => ⟨e, he, rfl⟩)

/-- C2: for a non-empty roster and a non-empty query-encoding sequence the
recognition run reaches the matching loop, and an id is recognized exactly
when some employee with that id has some stored encoding within tolerance of
some query encoding — OR across stored encodings and across query encodings,
a single pairwise match sufficing. -/
theorem recognized_iff_pairwise_match (tol : ℚ) (es : List Employee) (qs : List Emb)
    (hes : es ≠ []) (hqs : qs ≠ []) (x : String) :
    ∃ S, recognize_image tol es qs = .report S ∧
      (x ∈ S ↔
        ∃ emp ∈ es, emp.id = x ∧ ∃ enc ∈ emp.encodings, ∃ q ∈ qs, sqDist enc q ≤ tol ^ 2) := by
  refine ⟨recognizedIds tol es qs, ?_, ?_⟩
  · simp [recognize_image, List.isEmpty_iff, hes, hqs]
  · rw [mem_recognizedIds]
    constructor
    · rintro ⟨q, hq, emp, hmem, hc, rfl⟩
      obtain ⟨enc, henc, hd⟩ := (contains_compare_faces _ _ _).mp hc
      exact ⟨emp, hmem, rfl, enc, henc, q, hq, hd⟩
    · rintro ⟨emp, hmem, rfl, enc, henc, q, hq, hd⟩
      exact ⟨q, hq, emp, hmem, (contains_compare_faces _ _ _).mpr ⟨enc, henc, hd⟩, rfl⟩

/-- C2 witness: a one-employee roster and one query encoding at distance 0. -/
theorem recognized_iff_pairwise_match_witness :
    ∃ S, recognize_image tolerance [⟨"1", "Alice", [[0]]⟩] [[0]] = .report S ∧
      ("1" ∈ S ↔
        ∃ emp ∈ [(⟨"1", "Alice", [[0]]⟩ : Employee)], emp.id = "1" ∧
          ∃ enc ∈ emp.encodings, ∃ q ∈ [[(0 : ℚ)]], sqDist enc q ≤ tolerance ^ 2) :=
  recognized_iff_pairwise_match tolerance [⟨"1", "Alice", [[0]]⟩] [[0]]
    (by decide) (by decide) "1"

/-- C5: an empty roster makes the run return the `"No employees registered"`
outcome and an empty query-encoding list the `"No faces detected"` outcome;
in either case the recognized set is empty and the matching loop, had it run,
would also produce the empty set. -/
theorem empty_inputs_empty_recognized (tol : ℚ) (es : List Employee) (qs : List Emb) :
    (es = [] →
      recognize_image tol es qs = .noEmployees ∧
      outcomeRecognized (recognize_image tol es qs) = ∅ ∧
      recognizedIds tol es qs = ∅) ∧
    (qs = [] →
      recognizedIds tol es qs = ∅ ∧
      outcomeRecognized (recognize_image tol es qs) = ∅ ∧
      (es ≠ [] → recognize_image tol es qs = .noFaces)) := by
  constructor
  · rintro rfl
    refine ⟨rfl, rfl, ?_⟩
    rw [Finset.eq_empty_iff_forall_not_mem]
    intro x hx
    obtain ⟨q, _, emp, hmem, _⟩ := (mem_recognizedIds tol [] qs x).mp hx
    exact absurd hmem (List.not_mem_nil emp)
  · rintro rfl
    have hids : recognizedIds tol es [] = ∅ := rfl
    refine ⟨hids, ?_, fun hes => ?_⟩
    · rcases es with _ | ⟨e, rest⟩
      · rfl
      · rfl
    · simp [recognize_image, List.isEmpty_iff, hes]

/-- C5 witness: both empty-input cases at concrete values. -/
theorem empty_inputs_empty_recognized_witness :
    (recognize_image tolerance [] [[0]] = .noEmployees ∧
      outcomeRecognized (recognize_image tolerance [] [[0]]) = ∅ ∧
      recognizedIds tolerance [] [[0]] = ∅) ∧
    (recognizedIds tolerance [⟨"1", "Alice", [[0]]⟩] [] = ∅ ∧
      outcomeRecognized (recognize_image tolerance [⟨"1", "Alice", [[0]]⟩] []) = ∅ ∧
      recognize_image tolerance [⟨"1", "Alice", [[0]]⟩] [] = .noFaces) := by
  refine ⟨(empty_inputs_empty_recognized tolerance [] [[0]]).1 rfl, ?_⟩
  have h := (empty_inputs_empty_recognized tolerance [⟨"1", "Alice", [[0]]⟩] []).2 rfl
  exact ⟨h.1, h.2.1, h.2.2 (by decide)⟩

/-- C6: `load_employees` returns the persisted roster when the store exists
and parses, and the empty roster — with no error propagated — when the file
is missing or reading/parsing it raises. -/
theorem load_employees_degrades_to_empty :
    load_employees .missing = [] ∧
    load_employees .unreadable = [] ∧
    ∀ es : List Employee, load_employees (.parsed es) = es :=
  ⟨rfl, rfl, fun _ => rfl⟩

/-- C8: one recognition run never changes the store, and the outcome is a
function of the loaded roster, the query encodings, and the tolerance alone:
two stores that load to the same roster give the same outcome. -/
theorem matching_pure_deterministic (tol : ℚ) (qs : List Emb) (store store2 : StoreFile) :
    (recognize_run tol store qs).2 = store ∧
    (load_employees store = load_employees store2 →
      (recognize_run tol store qs).1 = (recognize_run tol store2 qs).1) := by
  refine ⟨rfl, fun h => ?_⟩
  simp only [recognize_run, h]

/-- C8 witness: a missing store and a corrupt store load identically, so one
run leaves each unchanged and both give the same outcome. -/
theorem matching_pure_deterministic_witness :
    (recognize_run tolerance .missing [[0]]).2 = .missing ∧
    (recognize_run tolerance .missing [[0]]).1 = (recognize_run tolerance .unreadable [[0]]).1 :=
  ⟨(matching_pure_deterministic tolerance [[0]] .missing .unreadable).1,
    (matching_pure_deterministic tolerance [[0]] .missing .unreadable).2 rfl⟩

/-- C10: every recognized id is the id of some roster employee — witnessed by
an employee whose stored-encoding list is non-empty, so the matching loop
never invents an id and never recognizes an identity with no stored
encodings. -/
theorem recognized_ids_come_from_roster (tol : ℚ) (es : List Employee) (qs : List Emb)
    (x : String) (hx : x ∈ recognizedIds tol es qs) :
    ∃ emp ∈ es, emp.id = x ∧ emp.encodings ≠ [] := by
  obtain ⟨q, _, emp, hmem, hc, rfl⟩ := (mem_recognizedIds tol es qs x).mp hx
  refine ⟨emp, hmem, rfl, ?_⟩
  intro hnil
  rw [contains_compare_faces] at hc
  obtain ⟨enc, henc, -⟩ := hc
  rw [hnil] at henc
  exact List.not_mem_nil enc henc

/-- C3: enrollment preserves the id-uniqueness invariant of the roster; a
duplicate id is rejected with an error dialog and the store left unchanged;
and an empty name, empty id, or non-digit id is likewise rejected with an
error dialog and zero mutation. -/
theorem enrollment_unique_ids (fps : List ImageResult) (name employee_id : String)
    (store : StoreFile) :
    (uniqueIds (load_employees store) →
      uniqueIds (load_employees (upload_images fps name employee_id store).2)) ∧
    (fps ≠ [] →
      (load_employees store).any (fun emp => emp.id == employee_id) = true →
      isErrorReport (upload_images fps name employee_id store).1 = true ∧
      (upload_images fps name employee_id store).2 = store) ∧
    (fps ≠ [] →
      ((name.isEmpty || employee_id.isEmpty) = true ∨ pyIsdigit employee_id = false) →
      isErrorReport (upload_images fps name employee_id store).1 = true ∧
      (upload_images fps name employee_id store).2 = store) := by
  rcases upload_images_cases fps name employee_id store with
    ⟨hfps, heq⟩ | ⟨hfps, h2, heq⟩ | ⟨hfps, h2, h3, heq⟩ | ⟨hfps, h2, h3, h4, heq⟩ |
    ⟨hfps, h2, h3, h4, h5, heq⟩ | ⟨hfps, h2, h3, h4, h5, heq⟩
  · exact ⟨fun hu => by rw [heq]; exact hu, fun h => absurd hfps h,
      fun h => absurd hfps h⟩
  · exact ⟨fun hu => by rw [heq]; exact hu, fun _ _ => by rw [heq]; exact ⟨rfl, rfl⟩,
      fun _ _ => by rw [heq]; exact ⟨rfl, rfl⟩⟩
  · exact ⟨fun hu => by rw [heq]; exact hu, fun _ _ => by rw [heq]; exact ⟨rfl, rfl⟩,
      fun _ _ => by rw [heq]; exact ⟨rfl, rfl⟩⟩
  · refine ⟨fun hu => by rw [heq]; exact hu, fun _ _ => by rw [heq]; exact ⟨rfl, rfl⟩,
      fun _ hval => ?_⟩
    rcases hval with hval | hval
    · rw [h2] at hval; cases hval
    · rw [h3] at hval; cases hval
  · refine ⟨fun hu => by rw [heq]; exact hu, fun _ hdup => ?_, fun _ hval => ?_⟩
    · rw [h4] at hdup; cases hdup
    · rcases hval with hval | hval
      · rw [h2] at hval; cases hval
      · rw [h3] at hval; cases hval
  · refine ⟨fun hu => ?_, fun _ hdup => ?_, fun _ hval => ?_⟩
    · rw [heq]
      have hnotin : employee_id ∉ (load_employees store).map Employee.id := by
        intro hmem
        obtain ⟨emp, hemp, hid⟩ := List.mem_map.mp hmem
        have hfalse := List.any_eq_false.mp h4 emp hemp
        rw [hid] at hfalse
        simp at hfalse
      simp only [load_employees, uniqueIds, List.map_append, List.map_cons, List.map_nil]
      rw [List.nodup_append]
      refine ⟨hu, List.nodup_singleton _, ?_⟩
      intro a ha hb
      rw [List.mem_singleton] at hb
      rw [hb] at ha
      exact hnotin ha
    · rw [h4] at hdup; cases hdup
    · rcases hval with hval | hval
      · rw [h2] at hval; cases hval
      · rw [h3] at hval; cases hval

/-- C3 witness: a duplicate id and an empty name are each rejected with an
error dialog and no store change, and uniqueness is preserved at a concrete
store. -/
theorem enrollment_unique_ids_witness :
    uniqueIds (load_employees
      (upload_images [.ok [[0]]] "Alice" "1" (.parsed [⟨"1", "Bob", [[1]]⟩])).2) ∧
    (isErrorReport
        (upload_images [.ok [[0]]] "Alice" "1" (.parsed [⟨"1", "Bob", [[1]]⟩])).1 = true ∧
      (upload_images [.ok [[0]]] "Alice" "1" (.parsed [⟨"1", "Bob", [[1]]⟩])).2 =
        .parsed [⟨"1", "Bob", [[1]]⟩]) ∧
    (isErrorReport (upload_images [.ok [[0]]] "" "1" (.parsed [])).1 = true ∧
      (upload_images [.ok [[0]]] "" "1" (.parsed [])).2 = .parsed []) :=
  ⟨(enrollment_unique_ids [.ok [[0]]] "Alice" "1" (.parsed [⟨"1", "Bob", [[1]]⟩])).1
      (by decide),
    (enrollment_unique_ids [.ok [[0]]] "Alice" "1" (.parsed [⟨"1", "Bob", [[1]]⟩])).2.1
      (by decide) (by decide),
    (enrollment_unique_ids [.ok [[0]]] "" "1" (.parsed [])).2.2
      (by decide) (Or.inl (by decide))⟩

/-- C4: enrollment is atomic at identity granularity: if the batch yields no
encodings the store is unchanged and the call does not report success, and in
general a call either leaves the store exactly as it was or reports success
and persists exactly the old roster plus the one new employee. -/
theorem enrollment_atomic (fps : List ImageResult) (name employee_id : String)
    (store : StoreFile) :
    (collect_encodings fps = [] →
      (upload_images fps name employee_id store).2 = store ∧
      ∀ k, (upload_images fps name employee_id store).1 ≠ .success k) ∧
    ((upload_images fps name employee_id store).2 = store ∨
      upload_images fps name employee_id store =
        (.success (collect_encodings fps).length,
          .parsed (load_employees store ++
            [{ id := employee_id, name := name, encodings := collect_encodings fps }]))) := by
  rcases upload_images_cases fps name employee_id store with
    ⟨hfps, heq⟩ | ⟨hfps, h2, heq⟩ | ⟨hfps, h2, h3, heq⟩ | ⟨hfps, h2, h3, h4, heq⟩ |
    ⟨hfps, h2, h3, h4, h5, heq⟩ | ⟨hfps, h2, h3, h4, h5, heq⟩
  · exact ⟨fun _ => by rw [heq]; exact ⟨rfl, fun k h => by cases h⟩, Or.inl (by rw [heq])⟩
  · exact ⟨fun _ => by rw [heq]; exact ⟨rfl, fun k h => by cases h⟩, Or.inl (by rw [heq])⟩
  · exact ⟨fun _ => by rw [heq]; exact ⟨rfl, fun k h => by cases h⟩, Or.inl (by rw [heq])⟩
  · exact ⟨fun _ => by rw [heq]; exact ⟨rfl, fun k h => by cases h⟩, Or.inl (by rw [heq])⟩
  · exact ⟨fun _ => by rw [heq]; exact ⟨rfl, fun k h => by cases h⟩, Or.inl (by rw [heq])⟩
  · exact ⟨fun hnil => absurd hnil h5, Or.inr heq⟩

/-- C4 witness: a batch of one faceless image and one unreadable image
collects nothing, so the call leaves the store unchanged and does not report
success. -/
theorem enrollment_atomic_witness :
    ((upload_images [.ok [], .err] "Alice" "1" (.parsed [])).2 = .parsed [] ∧
      (upload_images [.ok [], .err] "Alice" "1" (.parsed [])).1 ≠ .success 0) ∧
    ((upload_images [.ok [], .err] "Alice" "1" (.parsed [])).2 = .parsed [] ∨
      upload_images [.ok [], .err] "Alice" "1" (.parsed []) =
        (.success (collect_encodings [.ok [], .err]).length,
          .parsed (load_employees (.parsed []) ++
            [{ id := "1", name := "Alice",
               encodings := collect_encodings [.ok [], .err] }]))) :=
  ⟨⟨((enrollment_atomic [.ok [], .err] "Alice" "1" (.parsed [])).1 rfl).1,
      ((enrollment_atomic [.ok [], .err] "Alice" "1" (.parsed [])).1 rfl).2 0⟩,
    (enrollment_atomic [.ok [], .err] "Alice" "1" (.parsed [])).2⟩

/-- C7: the collection loop takes exactly the first encoding of each image
that produced at least one, in batch order (a `filterMap` of the
first-encoding projection), and a successful enrollment stores exactly this
sequence, of length at least 1, reporting its length. -/
theorem enrollment_first_embedding_order (fps : List ImageResult) :
    collect_encodings fps = fps.filterMap firstFace ∧
    (∀ (name employee_id : String) (store : StoreFile) (k : ℕ),
      (upload_images fps name employee_id store).1 = .success k →
      (upload_images fps name employee_id store).2 =
        .parsed (load_employees store ++
          [{ id := employee_id, name := name, encodings := collect_encodings fps }]) ∧
      k = (collect_encodings fps).length ∧
      1 ≤ (collect_encodings fps).length) := by
  constructor
  · induction fps with
    | nil => rfl
    | cons r rest ih =>
      cases r with
      | ok encs =>
        cases encs with
        | nil => simpa [collect_encodings, firstFace] using ih
        | cons e es2 => simpa [collect_encodings, firstFace] using ih
      | err => simpa [collect_encodings, firstFace] using ih
  · intro name employee_id store k hsucc
    rcases upload_images_cases fps name employee_id store with
      ⟨hfps, heq⟩ | ⟨hfps, h2, heq⟩ | ⟨hfps, h2, h3, heq⟩ | ⟨hfps, h2, h3, h4, heq⟩ |
      ⟨hfps, h2, h3, h4, h5, heq⟩ | ⟨hfps, h2, h3, h4, h5, heq⟩
    · rw [heq] at hsucc; cases hsucc
    · rw [heq] at hsucc; cases hsucc
    · rw [heq] at hsucc; cases hsucc
    · rw [heq] at hsucc; cases hsucc
    · rw [heq] at hsucc; cases hsucc
    · rw [heq] at hsucc
      cases hsucc
      exact ⟨by rw [heq], rfl, Nat.one_le_iff_ne_zero.mpr
        (fun h0 => h5 (List.length_eq_zero.mp h0))⟩

/-- C7 witness: a one-image batch enrolls successfully, storing exactly the
collected first encoding, with the reported count equal to its length. -/
theorem enrollment_first_embedding_order_witness :
    collect_encodings [ImageResult.ok [[0]]] = [ImageResult.ok [[0]]].filterMap firstFace ∧
    ((upload_images [.ok [[0]]] "Alice" "7" (.parsed [])).2 =
        .parsed (load_employees (.parsed []) ++
          [{ id := "7", name := "Alice",
             encodings := collect_encodings [ImageResult.ok [[0]]] }]) ∧
      1 = (collect_encodings [ImageResult.ok [[0]]]).length ∧
      1 ≤ (collect_encodings [ImageResult.ok [[0]]]).length) :=
  ⟨(enrollment_first_embedding_order [.ok [[0]]]).1,
    (enrollment_first_embedding_order [.ok [[0]]]).2 "Alice" "7" (.parsed []) 1 (by decide)⟩

/-- C9 counterexample: with an empty batch the call returns silently — no
error dialog and no reason — refuting the claim that an empty batch is
reported to the caller with a specific reason like the other validation
errors. -/
theorem empty_batch_not_reported_counterexample :
    upload_images [] "Alice" "1" (.parsed []) = (.silent, .parsed []) ∧
    isErrorReport (upload_images [] "Alice" "1" (.parsed [])).1 = false :=
  ⟨rfl, rfl⟩

/-- C9 amended: an enrollment call with an empty batch of images returns
before any validation or store access with zero state change, but silently:
no reason is reported to the caller, unlike the empty-id, non-numeric-id and
duplicate-id validation errors. -/
theorem empty_batch_silent_no_mutation (name employee_id : String) (store : StoreFile) :
    upload_images [] name employee_id store = (.silent, store) ∧
    isErrorReport (upload_images [] name employee_id store).1 = false :=
  ⟨rfl, rfl⟩

/-- C10 witness: the id `"1"` is recognized on a concrete roster and query,
and indeed comes from a roster employee with stored encodings. -/
theorem recognized_ids_come_from_roster_witness :
    ∃ emp ∈ [(⟨"1", "Alice", [[0]]⟩ : Employee)], emp.id = "1" ∧ emp.encodings ≠ [] :=
  recognized_ids_come_from_roster tolerance [⟨"1", "Alice", [[0]]⟩] [[0]] "1"
    (by
      rw [mem_recognizedIds]
      refine ⟨[0], by simp, ⟨"1", "Alice", [[0]]⟩, by simp, ?_, rfl⟩
      rw [contains_compare_faces]
      exact ⟨[0], by simp, by norm_num [sqDist, tolerance]⟩)
